import Mathlib

/-!
Verification of the stashtrend selection-conflict model and sync-poll client.

Shallow embedding translated from the frontend sources:
- frontend/src/pages/GroupsPage.jsx            (conflictMap, handleGroupToggle,
                                                handleSelectConfig, handleSaveConfig,
                                                handleDeleteConfig)
- frontend/src/components/GroupSnapshotControls.jsx  (isBlocked, chip onClick gate)
- pages/SyncPage (current generation: the variant using AutoSyncSettings,
  api.js helpers and a loadHistoryRef; startPolling, stopPolling, loadHistory,
  handleSyncStarted)
- frontend/src/api.js                          (startSync request shape)
- components/SyncControl (handleStart guard)
- frontend/src/components/SyncJobStatus.jsx    (empty-state rendering)

JS dictionaries are modelled as total functions with a default value,
JS Sets of ids as Finset Nat, JS numbers (ids) as Nat, and JS strings as
String.  Fetch outcomes are passed explicitly as Option values: none is a
rejected promise, some x a JSON payload x.
-/

namespace Stash

/-- Group record as served by GET /api/groups and consumed by GroupsPage. -/
structure Group where
  id : Nat
  name : String
  color : String
  account_ids : List Nat
deriving Repr, DecidableEq

/-- Saved selection configuration (SavedConfig). -/
structure SavedConfig where
  id : Nat
  name : String
  group_ids : List Nat
deriving Repr, DecidableEq

/-- Reverse index from account id to the list of group ids owning it.
Embeds the first loop of the conflictMap useMemo in GroupsPage.jsx:
for each group, for each of its account_ids, push the group id onto the
bucket for that account.  A missing key reads as the empty list. -/
def accountToGroupsStep (m : Nat → List Nat) (g : Group) : Nat → List Nat :=
  g.account_ids.foldl (fun m aid => Function.update m aid (m aid ++ [g.id])) m

/-- Reverse index built over the whole group list (single pass). -/
def accountToGroups (groups : List Group) : Nat → List Nat :=
  groups.foldl accountToGroupsStep (fun _ => [])

/-- Conflict set of one group: union of the reverse-index buckets of its own
accounts, excluding the group itself.  Embeds the inner loops of the second
pass of the conflictMap useMemo. -/
def conflictsOf (atg : Nat → List Nat) (g : Group) : Finset Nat :=
  g.account_ids.foldl
    (fun s aid => (atg aid).foldl
      (fun s otherId => if otherId ≠ g.id then insert otherId s else s) s)
    ∅

/-- Conflict map: group id to the set of group ids sharing at least one
account.  Keys absent from the JS object read as the empty set, matching
the conflictMap[groupId] ?? new Set() default at every use site. -/
def conflictMap (groups : List Group) : Nat → Finset Nat :=
  groups.foldl
    (fun m g => Function.update m g.id (conflictsOf (accountToGroups groups) g))
    (fun _ => ∅)

/-- Blocked predicate from GroupSnapshotControls.jsx: a chip is blocked iff
it is not already selected and some group in its conflict set is selected. -/
def isBlocked (selectedGroupIds : Finset Nat) (cmap : Nat → Finset Nat)
    (groupId : Nat) : Bool :=
  if groupId ∈ selectedGroupIds then false
  else decide (∃ cid ∈ cmap groupId, cid ∈ selectedGroupIds)

/-- GroupsPage state touched by the selection handlers. -/
structure GroupsState where
  selected : Finset Nat
  activeConfigId : Option Nat
  configs : List SavedConfig
deriving DecidableEq

/-- Toggle of a group id on a plain selection set (the setSelectedGroupIds
updater inside handleGroupToggle). -/
def toggleSel (sel : Finset Nat) (gid : Nat) : Finset Nat :=
  if gid ∈ sel then sel.erase gid else insert gid sel

/-- handleGroupToggle from GroupsPage.jsx: toggles the id in the selection
and clears the saved-config pointer. -/
def handleGroupToggle (s : GroupsState) (gid : Nat) : GroupsState :=
  { s with selected := toggleSel s.selected gid, activeConfigId := none }

/-- Group chip click as wired in GroupSnapshotControls.jsx: the button is
disabled when blocked and its onClick also guards with the same predicate,
so a blocked chip never reaches handleGroupToggle. -/
def chipToggle (s : GroupsState) (cmap : Nat → Finset Nat) (gid : Nat) :
    GroupsState :=
  if isBlocked s.selected cmap gid then s else handleGroupToggle s gid

/-- handleSelectConfig from GroupsPage.jsx: replaces the whole selection with
the configs group ids and marks it active.  Persistence is fire-and-forget
and never rolls the in-memory state back. -/
def handleSelectConfig (s : GroupsState) (cfg : SavedConfig) : GroupsState :=
  { s with selected := cfg.group_ids.toFinset, activeConfigId := some cfg.id }

/-- handleSaveConfig from GroupsPage.jsx: on POST success the configs list is
replaced by the server response; selection and active pointer are untouched.
On failure nothing changes. -/
def handleSaveConfig (s : GroupsState) (resp : Option (List SavedConfig)) :
    GroupsState :=
  match resp with
  | some cs => { s with configs := cs }
  | none => s

/-- handleDeleteConfig from GroupsPage.jsx: on POST success the configs list
is replaced and, when the deleted config was the active one, the active
pointer is cleared; the selection itself is untouched.  On failure nothing
changes. -/
def handleDeleteConfig (s : GroupsState) (cid : Nat)
    (resp : Option (List SavedConfig)) : GroupsState :=
  match resp with
  | some cs =>
      { s with configs := cs,
               activeConfigId :=
                 if s.activeConfigId = some cid then none else s.activeConfigId }
  | none => s

/-- User-level events on the GroupsPage selection state. -/
inductive GroupsEvent where
  | toggle (gid : Nat)
  | selectConfig (cfg : SavedConfig)
  | saveConfig (resp : Option (List SavedConfig))
  | deleteConfig (cid : Nat) (resp : Option (List SavedConfig))
deriving Repr, DecidableEq

/-- Dispatch of one GroupsPage handler invocation. -/
def stepGroups (s : GroupsState) (e : GroupsEvent) : GroupsState :=
  match e with
  | .toggle gid => handleGroupToggle s gid
  | .selectConfig cfg => handleSelectConfig s cfg
  | .saveConfig resp => handleSaveConfig s resp
  | .deleteConfig cid resp => handleDeleteConfig s cid resp

/-- Fields of a sync job record that the SyncPage poll loop consults:
job.status in the tick callback and the id/status of the history head in
loadHistory.  The remaining SyncJob fields are rendered only. -/
structure SyncJob where
  id : String
  status : String
deriving Repr, DecidableEq

/-- Poll interval of the SyncPage timer (POLL_INTERVAL_MS). -/
def POLL_INTERVAL_MS : Nat := 2000

/-- SyncPage client state.  pollRef mirrors the pollRef.current handle (the
job id the live interval polls); timers tracks every interval that has been
created and not yet cleared, so that timer leaks are observable in the
model; historyFetches counts loadHistory invocations that were issued. -/
structure PollState where
  displayedJob : Option SyncJob
  history : List SyncJob
  isRunning : Bool
  historyError : Option String
  pollError : Option String
  pollRef : Option String
  timers : List String
  historyFetches : Nat
deriving Repr, DecidableEq

/-- Initial SyncPage state before the mount effect runs. -/
def pollInit : PollState :=
  { displayedJob := none, history := [], isRunning := false,
    historyError := none, pollError := none, pollRef := none,
    timers := [], historyFetches := 0 }

/-- stopPolling from SyncPage: clearInterval on the current handle, if any,
then null the ref. -/
def stopPolling (s : PollState) : PollState :=
  match s.pollRef with
  | some jid => { s with pollRef := none, timers := s.timers.erase jid }
  | none => s

/-- startPolling from SyncPage: always stopPolling first, then create the
interval for the given job id and store its handle. -/
def startPolling (s : PollState) (jobId : String) : PollState :=
  let s1 := stopPolling s
  { s1 with pollRef := some jobId, timers := s1.timers ++ [jobId] }

/-- Message shown when a status fetch fails while polling. -/
def pollErrorMsg : String := "Lost connection to server - sync status may be stale"

/-- Message shown when the history fetch fails. -/
def historyErrorMsg : String := "Failed to load sync history"

/-- One firing of the interval callback inside startPolling, with the
outcome of the status fetch passed explicitly (none is a rejected fetch).
With no live interval no callback fires, so the state is returned as is.
On success the displayed job is replaced by the servers record; if that
record is terminal the timer is stopped, isRunning cleared and a history
refresh issued (via loadHistoryRef).  On failure only the poll-error notice
is set: no state transition, the timer stays live. -/
def pollTick (s : PollState) (outcome : Option SyncJob) : PollState :=
  match s.pollRef with
  | none => s
  | some _ =>
    match outcome with
    | none => { s with pollError := some pollErrorMsg }
    | some job =>
      let s1 := { s with displayedJob := some job }
      if job.status ≠ "running" then
        let s2 := stopPolling s1
        { s2 with isRunning := false, historyFetches := s2.historyFetches + 1 }
      else s1

/-- loadHistory from SyncPage, with the fetch outcome passed explicitly.
On success the history list is stored; if its most recent entry is still
running and no poll is active, polling resumes against that job id.  On
failure only the history-error notice is set. -/
def loadHistory (s : PollState) (outcome : Option (List SyncJob)) : PollState :=
  match outcome with
  | none => { s with historyError := some historyErrorMsg }
  | some data =>
    let s1 := { s with history := data, historyError := none }
    match data with
    | [] => s1
    | first :: _ =>
      if first.status = "running" ∧ s1.pollRef = none then
        startPolling
          { s1 with displayedJob := some first, isRunning := true } first.id
      else s1

/-- handleSyncStarted from SyncPage: mark running, clear the displayed job,
start polling the new job id, and issue a history refresh. -/
def handleSyncStarted (s : PollState) (jobId : String) : PollState :=
  let s1 := { s with isRunning := true, displayedJob := none }
  let s2 := startPolling s1 jobId
  { s2 with historyFetches := s2.historyFetches + 1 }

/-- Events that drive the SyncPage poll client.  tick carries the status
fetch outcome of the live interval; historyLoaded the outcome of a history
fetch; unmount runs the effect cleanup (stopPolling). -/
inductive PollEvent where
  | syncStarted (jobId : String)
  | tick (outcome : Option SyncJob)
  | historyLoaded (outcome : Option (List SyncJob))
  | unmount
deriving Repr, DecidableEq

/-- Dispatch of one poll-client event. -/
def stepPoll (s : PollState) (e : PollEvent) : PollState :=
  match e with
  | .syncStarted jid => handleSyncStarted s jid
  | .tick outcome => pollTick s outcome
  | .historyLoaded outcome => loadHistory s outcome
  | .unmount => stopPolling s

/-- States of the poll client reachable from the initial state. -/
def PollReachable (s : PollState) : Prop :=
  ∃ es : List PollEvent, s = es.foldl stepPoll pollInit

/-- Empty-state branch of SyncJobStatus.jsx: with no job record it renders
a starting hint while isRunning, and the never-synced hint otherwise. -/
def syncStatusEmptyState (job : Option SyncJob) (isRunning : Bool) :
    Option String :=
  match job with
  | some _ => none
  | none =>
      some (if isRunning then "Sync starting..."
            else "No sync has been run yet.")

/-- JSON values as sent by the client (only the shapes used here). -/
inductive Json where
  | str (s : String)
  | bool (b : Bool)
  | arr (xs : List Json)
  | obj (fields : List (String × Json))

/-- Lookup of a key in a JSON object body (first binding wins). -/
def jsonObjGet (fields : List (String × Json)) (k : String) : Option Json :=
  (fields.find? (fun p => p.1 == k)).map Prod.snd

/-- HTTP request as issued by mutateJSON in api.js. -/
structure HttpRequest where
  url : String
  method : String
  body : Json

/-- Field lookup on a request with an object body. -/
def bodyField (r : HttpRequest) (k : String) : Option Json :=
  match r.body with
  | .obj fields => jsonObjGet fields k
  | _ => none

/-- startSync from api.js: POST /api/sync/start with body
JSON.stringify(\x7b entities, full \x7d) - the mode flag is serialized
under the shorthand property name full. -/
def startSync (entities : List String) (full : Bool) : HttpRequest :=
  { url := "/api/sync/start", method := "POST",
    body := .obj [("entities", .arr (entities.map .str)),
                  ("full", .bool full)] }

/-- handleStart from SyncControl: no request when a job is running, nothing
is selected, or a start is already in flight; otherwise startSync with the
selected entities (spread of the selection Set) and the mode flag. -/
def handleStart (isRunning : Bool) (isStarting : Bool)
    (selected : List String) (fullMode : Bool) : Option HttpRequest :=
  if isRunning ∨ selected.length = 0 ∨ isStarting then none
  else some (startSync selected fullMode)

-- Sanity examples on the three-group scenario from the spec (A and C share
-- account 10, B independent).
example :
    isBlocked {1} (conflictMap
      [⟨1, "A", "c1", [10]⟩, ⟨2, "B", "c2", [20]⟩, ⟨3, "C", "c3", [10, 30]⟩]) 3
      = true := by decide

example :
    isBlocked {1} (conflictMap
      [⟨1, "A", "c1", [10]⟩, ⟨2, "B", "c2", [20]⟩, ⟨3, "C", "c3", [10, 30]⟩]) 2
      = false := by decide

example :
    isBlocked {1, 3} (conflictMap
      [⟨1, "A", "c1", [10]⟩, ⟨2, "B", "c2", [20]⟩, ⟨3, "C", "c3", [10, 30]⟩]) 1
      = false := by decide

/-! Helper lemmas: membership in the reverse index and in the conflict map. -/

lemma mem_update_append_fold (l : List Nat) (gid : Nat) :
    ∀ (m : Nat → List Nat) (aid h : Nat),
      h ∈ (l.foldl (fun m a => Function.update m a (m a ++ [gid])) m) aid ↔
        h ∈ m aid ∨ (h = gid ∧ aid ∈ l) := by
  induction l with
  | nil => intro m aid h; simp
  | cons a l ih =>
      intro m aid h
      simp only [List.foldl_cons]
      rw [ih]
      by_cases haid : aid = a
      · subst haid
        rw [Function.update_same]
        simp [List.mem_append]
        tauto
      · rw [Function.update_noteq haid]
        simp only [List.mem_cons]
        constructor
        · rintro (hm | ⟨rfl, hl⟩)
          · exact Or.inl hm
          · exact Or.inr ⟨rfl, Or.inr hl⟩
        · rintro (hm | ⟨rfl, (rfl | hl)⟩)
          · exact Or.inl hm
          · exact absurd rfl haid
          · exact Or.inr ⟨rfl, hl⟩

lemma mem_accountToGroupsStep (m : Nat → List Nat) (g : Group) (aid h : Nat) :
    h ∈ accountToGroupsStep m g aid ↔
      h ∈ m aid ∨ (h = g.id ∧ aid ∈ g.account_ids) := by
  unfold accountToGroupsStep
  exact mem_update_append_fold g.account_ids g.id m aid h

lemma mem_accountToGroups_fold (gs : List Group) :
    ∀ (m : Nat → List Nat) (aid h : Nat),
      h ∈ (gs.foldl accountToGroupsStep m) aid ↔
        h ∈ m aid ∨ ∃ g ∈ gs, h = g.id ∧ aid ∈ g.account_ids := by
  induction gs with
  | nil => intro m aid h; simp
  | cons g gs ih =>
      intro m aid h
      simp only [List.foldl_cons]
      rw [ih, mem_accountToGroupsStep]
      simp only [List.mem_cons]
      constructor
      · rintro ((hm | ⟨rfl, hacc⟩) | ⟨g2, hg2, rfl, hacc⟩)
        · exact Or.inl hm
        · exact Or.inr ⟨g, Or.inl rfl, rfl, hacc⟩
        · exact Or.inr ⟨g2, Or.inr hg2, rfl, hacc⟩
      · rintro (hm | ⟨g2, (rfl | hg2), rfl, hacc⟩)
        · exact Or.inl (Or.inl hm)
        · exact Or.inl (Or.inr ⟨rfl, hacc⟩)
        · exact Or.inr ⟨g2, hg2, rfl, hacc⟩

lemma mem_accountToGroups (gs : List Group) (aid h : Nat) :
    h ∈ accountToGroups gs aid ↔ ∃ g ∈ gs, h = g.id ∧ aid ∈ g.account_ids := by
  unfold accountToGroups
  rw [mem_accountToGroups_fold]
  simp

lemma mem_insert_ne_fold (l : List Nat) (gid : Nat) :
    ∀ (s : Finset Nat) (h : Nat),
      h ∈ l.foldl (fun s o => if o ≠ gid then insert o s else s) s ↔
        h ∈ s ∨ (h ∈ l ∧ h ≠ gid) := by
  induction l with
  | nil => intro s h; simp
  | cons o l ih =>
      intro s h
      simp only [List.foldl_cons]
      rw [ih]
      by_cases ho : o = gid
      · subst ho
        simp only [ne_eq, not_true_eq_false, if_false, List.mem_cons]
        constructor
        · rintro (hs | ⟨hl, hne⟩)
          · exact Or.inl hs
          · exact Or.inr ⟨Or.inr hl, hne⟩
        · rintro (hs | ⟨(rfl | hl), hne⟩)
          · exact Or.inl hs
          · exact absurd rfl hne
          · exact Or.inr ⟨hl, hne⟩
      · simp only [ne_eq, ho, not_false_iff, if_true, Finset.mem_insert,
          List.mem_cons]
        constructor
        · rintro ((rfl | hs) | ⟨hl, hne⟩)
          · exact Or.inr ⟨Or.inl rfl, ho⟩
          · exact Or.inl hs
          · exact Or.inr ⟨Or.inr hl, hne⟩
        · rintro (hs | ⟨(rfl | hl), hne⟩)
          · exact Or.inl (Or.inr hs)
          · exact Or.inl (Or.inl rfl)
          · exact Or.inr ⟨hl, hne⟩

lemma mem_conflictsOf_fold (atg : Nat → List Nat) (g : Group) :
    ∀ (l : List Nat) (s : Finset Nat) (h : Nat),
      (h ∈ l.foldl
        (fun s aid => (atg aid).foldl
          (fun s otherId => if otherId ≠ g.id then insert otherId s else s) s)
        s) ↔ h ∈ s ∨ ∃ aid ∈ l, h ∈ atg aid ∧ h ≠ g.id := by
  intro l
  induction l with
  | nil => intro s h; simp
  | cons aid l ih =>
      intro s h
      simp only [List.foldl_cons]
      rw [ih, mem_insert_ne_fold]
      simp only [List.mem_cons]
      constructor
      · rintro ((hs | ⟨hb, hne⟩) | ⟨a, ha, hb, hne⟩)
        · exact Or.inl hs
        · exact Or.inr ⟨aid, Or.inl rfl, hb, hne⟩
        · exact Or.inr ⟨a, Or.inr ha, hb, hne⟩
      · rintro (hs | ⟨a, (rfl | ha), hb, hne⟩)
        · exact Or.inl (Or.inl hs)
        · exact Or.inl (Or.inr ⟨hb, hne⟩)
        · exact Or.inr ⟨a, ha, hb, hne⟩

lemma mem_conflictsOf (atg : Nat → List Nat) (g : Group) (h : Nat) :
    h ∈ conflictsOf atg g ↔
      ∃ aid ∈ g.account_ids, h ∈ atg aid ∧ h ≠ g.id := by
  unfold conflictsOf
  rw [mem_conflictsOf_fold]
  simp

lemma foldl_update_of_not_mem {β : Type} (f : Group → β) :
    ∀ (l : List Group) (m : Nat → β) (k : Nat), k ∉ l.map Group.id →
      (l.foldl (fun m g2 => Function.update m g2.id (f g2)) m) k = m k := by
  intro l
  induction l with
  | nil => intro m k _; rfl
  | cons a l ih =>
      intro m k hk
      simp only [List.map_cons, List.mem_cons] at hk
      push_neg at hk
      simp only [List.foldl_cons]
      rw [ih _ _ hk.2, Function.update_noteq hk.1]

lemma foldl_update_lookup {β : Type} (f : Group → β) :
    ∀ (l : List Group) (m : Nat → β) (g : Group),
      (l.map Group.id).Nodup → g ∈ l →
      (l.foldl (fun m g2 => Function.update m g2.id (f g2)) m) g.id = f g := by
  intro l
  induction l with
  | nil => intro m g _ hg; cases hg
  | cons a l ih =>
      intro m g hnd hg
      simp only [List.map_cons, List.nodup_cons] at hnd
      simp only [List.foldl_cons]
      rcases List.mem_cons.mp hg with rfl | hg
      · rw [foldl_update_of_not_mem f l _ _ hnd.1, Function.update_same]
      · exact ih _ _ hnd.2 hg

lemma conflictMap_eq_conflictsOf (gs : List Group) (g : Group)
    (hnd : (gs.map Group.id).Nodup) (hg : g ∈ gs) :
    conflictMap gs g.id = conflictsOf (accountToGroups gs) g := by
  unfold conflictMap
  exact foldl_update_lookup _ gs _ g hnd hg

lemma id_inj_of_nodup (gs : List Group)
    (hnd : (gs.map Group.id).Nodup) :
    ∀ a ∈ gs, ∀ b ∈ gs, a.id = b.id → a = b := by
  intro a ha b hb hab
  exact List.inj_on_of_nodup_map hnd ha hb hab

lemma mem_conflictMap_iff (gs : List Group) (g : Group) (h : Nat)
    (hnd : (gs.map Group.id).Nodup) (hg : g ∈ gs) :
    h ∈ conflictMap gs g.id ↔
      ∃ g2 ∈ gs, g2.id = h ∧ g2.id ≠ g.id ∧
        ∃ aid, aid ∈ g.account_ids ∧ aid ∈ g2.account_ids := by
  rw [conflictMap_eq_conflictsOf gs g hnd hg, mem_conflictsOf]
  constructor
  · rintro ⟨aid, haid, hb, hne⟩
    rcases (mem_accountToGroups gs aid h).mp hb with ⟨g2, hg2, rfl, hacc⟩
    exact ⟨g2, hg2, rfl, hne, aid, haid, hacc⟩
  · rintro ⟨g2, hg2, rfl, hne, aid, haid, hacc⟩
    exact ⟨aid, haid, (mem_accountToGroups gs aid g2.id).mpr
      ⟨g2, hg2, rfl, hacc⟩, hne⟩

/-! Helper lemmas: the poll-timer bookkeeping invariant. -/

/-- Timer bookkeeping invariant: the set of live intervals is exactly the
one held by the ref. -/
def TimersExact (s : PollState) : Prop := s.timers = s.pollRef.toList

lemma stopPolling_clears (s : PollState) (h : TimersExact s) :
    (stopPolling s).timers = [] ∧ (stopPolling s).pollRef = none := by
  unfold TimersExact at h
  unfold stopPolling
  cases href : s.pollRef with
  | none => rw [href] at h; simp at h; exact ⟨h, href⟩
  | some j => rw [href] at h; simp [h, List.erase_cons_head]

lemma stopPolling_timersExact (s : PollState) (h : TimersExact s) :
    TimersExact (stopPolling s) := by
  rcases stopPolling_clears s h with ⟨ht, hr⟩
  unfold TimersExact
  rw [ht, hr]
  rfl

lemma startPolling_timersExact (s : PollState) (jid : String)
    (h : TimersExact s) : TimersExact (startPolling s jid) := by
  rcases stopPolling_clears s h with ⟨ht, _⟩
  unfold TimersExact startPolling
  simp [ht]

lemma stepPoll_timersExact :
    ∀ (s : PollState) (e : PollEvent), TimersExact s →
      TimersExact (stepPoll s e) := by
  rintro ⟨dj, hist, run, herr, perr, pref, tmrs, hf⟩ e h
  unfold TimersExact at h ⊢
  cases e with
  | syncStarted jid =>
      cases pref <;>
        simp_all [stepPoll, handleSyncStarted, startPolling, stopPolling]
  | tick o =>
      cases pref with
      | none => cases o <;> simp_all [stepPoll, pollTick]
      | some j =>
          cases o with
          | none => simp_all [stepPoll, pollTick]
          | some job =>
              by_cases hst : job.status = "running" <;>
                simp_all [stepPoll, pollTick, stopPolling]
  | historyLoaded o =>
      cases o with
      | none => simp_all [stepPoll, loadHistory]
      | some data =>
          cases data with
          | nil => simp_all [stepPoll, loadHistory]
          | cons first rest =>
              cases pref with
              | none =>
                  by_cases hst : first.status = "running" <;>
                    simp_all [stepPoll, loadHistory, startPolling, stopPolling]
              | some j =>
                  simp_all [stepPoll, loadHistory, startPolling, stopPolling]
  | unmount =>
      cases pref <;> simp_all [stepPoll, stopPolling]

lemma foldl_stepPoll_timersExact :
    ∀ (es : List PollEvent) (s : PollState), TimersExact s →
      TimersExact (es.foldl stepPoll s) := by
  intro es
  induction es with
  | nil => intro s h; exact h
  | cons e es ih =>
      intro s h
      exact ih _ (stepPoll_timersExact s e h)

lemma reachable_timersExact (s : PollState) (h : PollReachable s) :
    TimersExact s := by
  rcases h with ⟨es, rfl⟩
  exact foldl_stepPoll_timersExact es pollInit rfl

/-- Pointwise fact used by several proofs: pollTick with no live interval is
a no-op, because no callback can fire. -/
lemma pollTick_ref_none (s : PollState) (o : Option SyncJob)
    (h : s.pollRef = none) : pollTick s o = s := by
  unfold pollTick
  rw [h]

/-- Concrete group list used by witnesses: the three-group scenario of the
spec, where A (id 1) and C (id 3) share account 10 and B (id 2) is
independent. -/
def exampleGroups : List Group :=
  [⟨1, "A", "c1", [10]⟩, ⟨2, "B", "c2", [20]⟩, ⟨3, "C", "c3", [10, 30]⟩]

/-- Shared helper: an already selected group id is never blocked. -/
lemma isBlocked_false_of_mem (sel : Finset Nat) (cmap : Nat → Finset Nat)
    (gid : Nat) (h : gid ∈ sel) : isBlocked sel cmap gid = false := by
  unfold isBlocked
  simp [h]

/-- C1: for every selection state and conflict map, isBlocked(groupId) is
true iff groupId is not in the selection and at least one id in its
conflict set is selected; in particular an already selected group is never
blocked, whatever the conflict relationships. -/
theorem C1_isBlocked_iff (sel : Finset Nat) (cmap : Nat → Finset Nat)
    (gid : Nat) :
    (isBlocked sel cmap gid = true ↔
      gid ∉ sel ∧ ∃ cid ∈ cmap gid, cid ∈ sel) ∧
    (gid ∈ sel → isBlocked sel cmap gid = false) := by
  constructor
  · unfold isBlocked
    by_cases h : gid ∈ sel <;> simp [h]
  · exact isBlocked_false_of_mem sel cmap gid

/-- C1 witness: a selected group (id 1 with id 3 also selected, the two
conflicting groups of the example) is not blocked. -/
theorem C1_isBlocked_iff_witness :
    1 ∈ ({1, 3} : Finset Nat) ∧
    isBlocked {1, 3} (conflictMap exampleGroups) 1 = false :=
  ⟨by decide, (C1_isBlocked_iff {1, 3} (conflictMap exampleGroups) 1).2
    (by decide)⟩

/-- C2: the toggle as exposed through the group chip removes a selected
group unconditionally, adds an unselected group only when not blocked, and
is a no-op on an unselected blocked group.  The guard sits in the chip
gate, modelled by chipToggle around the unguarded handleGroupToggle. -/
theorem C2_chipToggle (s : GroupsState) (cmap : Nat → Finset Nat)
    (gid : Nat) :
    (gid ∈ s.selected →
      (chipToggle s cmap gid).selected = s.selected.erase gid) ∧
    (gid ∉ s.selected → isBlocked s.selected cmap gid = false →
      (chipToggle s cmap gid).selected = insert gid s.selected) ∧
    (gid ∉ s.selected → isBlocked s.selected cmap gid = true →
      chipToggle s cmap gid = s) := by
  refine ⟨?_, ?_, ?_⟩
  · intro hmem
    have hb : isBlocked s.selected cmap gid = false :=
      isBlocked_false_of_mem s.selected cmap gid hmem
    simp [chipToggle, hb, handleGroupToggle, toggleSel, hmem]
  · intro hmem hb
    simp [chipToggle, hb, handleGroupToggle, toggleSel, hmem]
  · intro _ hb
    simp [chipToggle, hb]

/-- C2 witness: with groups A and C both selected in the example (the two
conflicting groups), clicking the chip of A still deselects it. -/
theorem C2_chipToggle_witness :
    1 ∈ ({1, 3} : Finset Nat) ∧
    (chipToggle ⟨{1, 3}, some 7, []⟩ (conflictMap exampleGroups) 1).selected
      = ({1, 3} : Finset Nat).erase 1 :=
  ⟨by decide,
   (C2_chipToggle ⟨{1, 3}, some 7, []⟩ (conflictMap exampleGroups) 1).1
     (by decide)⟩

/-- C3: over any group list with distinct ids, the derived conflict map
assigns to each listed groups id exactly the ids of the other groups whose
account-id set meets its own; no group conflicts with itself; and the map
is symmetric between listed groups. -/
theorem C3_conflictMap_correct (gs : List Group)
    (hnd : (gs.map Group.id).Nodup) :
    (∀ g ∈ gs, ∀ h : Nat,
      h ∈ conflictMap gs g.id ↔
        ∃ g2 ∈ gs, g2.id = h ∧ g2.id ≠ g.id ∧
          ∃ aid, aid ∈ g.account_ids ∧ aid ∈ g2.account_ids) ∧
    (∀ g ∈ gs, g.id ∉ conflictMap gs g.id) ∧
    (∀ ga ∈ gs, ∀ gb ∈ gs,
      gb.id ∈ conflictMap gs ga.id → ga.id ∈ conflictMap gs gb.id) := by
  refine ⟨fun g hg h => mem_conflictMap_iff gs g h hnd hg, ?_, ?_⟩
  · intro g hg hmem
    obtain ⟨g2, _, hid, hne, _⟩ :=
      (mem_conflictMap_iff gs g g.id hnd hg).mp hmem
    exact hne hid
  · intro ga ha gb hb hmem
    obtain ⟨g2, hg2, hid, hne, aid, haid, hacc⟩ :=
      (mem_conflictMap_iff gs ga gb.id hnd ha).mp hmem
    have hgb : g2 = gb := id_inj_of_nodup gs hnd g2 hg2 gb hb hid
    subst hgb
    exact (mem_conflictMap_iff gs g2 ga.id hnd hg2).mpr
      ⟨ga, ha, rfl, Ne.symm hne, aid, hacc, haid⟩

/-- C3 witness: the example group list has distinct ids, A is a listed
group, and A does not conflict with itself. -/
theorem C3_conflictMap_correct_witness :
    (exampleGroups.map Group.id).Nodup ∧
    (⟨1, "A", "c1", [10]⟩ : Group) ∈ exampleGroups ∧
    (⟨1, "A", "c1", [10]⟩ : Group).id ∉
      conflictMap exampleGroups (⟨1, "A", "c1", [10]⟩ : Group).id :=
  ⟨by decide, by decide,
   (C3_conflictMap_correct exampleGroups (by decide)).2.1 _ (by decide)⟩

/-- C7: handleSelectConfig replaces the whole selection with the group ids
of the chosen config - whatever the prior selection and conflicts - so
reading the selection immediately afterwards yields exactly those ids. -/
theorem C7_selectConfig_roundtrip (s : GroupsState) (cfg : SavedConfig) :
    (handleSelectConfig s cfg).selected = cfg.group_ids.toFinset ∧
    (∀ g : Nat,
      g ∈ (handleSelectConfig s cfg).selected ↔ g ∈ cfg.group_ids) := by
  refine ⟨rfl, ?_⟩
  intro g
  simp [handleSelectConfig]

/-- C10: every manual toggle clears the active saved-config pointer, and
across all selection handlers the only step that sets the pointer to a new
config id is handleSelectConfig, which at the same time replaces the
selection with exactly that configs group ids. -/
theorem C10_toggle_clears_active (s : GroupsState) (gid : Nat) :
    ((handleGroupToggle s gid).activeConfigId = none) ∧
    (∀ (e : GroupsEvent) (cid : Nat),
      (stepGroups s e).activeConfigId = some cid →
      s.activeConfigId ≠ some cid →
      ∃ cfg : SavedConfig, e = .selectConfig cfg ∧ cfg.id = cid ∧
        (stepGroups s e).selected = cfg.group_ids.toFinset) := by
  refine ⟨rfl, ?_⟩
  intro e cid hset hchg
  cases e with
  | toggle gid2 => exact absurd hset (by simp [stepGroups, handleGroupToggle])
  | selectConfig cfg =>
      refine ⟨cfg, rfl, ?_, rfl⟩
      have : some cfg.id = some cid := hset
      exact Option.some_injective _ this
  | saveConfig resp =>
      cases resp with
      | none => exact absurd hset hchg
      | some cs => exact absurd hset hchg
  | deleteConfig cid2 resp =>
      cases resp with
      | none => exact absurd hset hchg
      | some cs =>
          by_cases hact : s.activeConfigId = some cid2
          · exact absurd hset (by simp [stepGroups, handleDeleteConfig, hact])
          · exact absurd hset (by simp [stepGroups, handleDeleteConfig, hact,
              hchg])

/-- C10 witness: selecting a config with id 5 from a state with no active
config marks exactly that config active and installs its group ids. -/
theorem C10_toggle_clears_active_witness :
    (stepGroups ⟨∅, none, []⟩
      (.selectConfig ⟨5, "view", [2, 3]⟩)).activeConfigId = some 5 ∧
    (⟨∅, none, []⟩ : GroupsState).activeConfigId ≠ some 5 ∧
    ∃ cfg : SavedConfig,
      GroupsEvent.selectConfig ⟨5, "view", [2, 3]⟩ = .selectConfig cfg ∧
      cfg.id = 5 ∧
      (stepGroups ⟨∅, none, []⟩
        (.selectConfig ⟨5, "view", [2, 3]⟩)).selected = cfg.group_ids.toFinset :=
  ⟨rfl, by decide,
   (C10_toggle_clears_active ⟨∅, none, []⟩ 0).2
     (.selectConfig ⟨5, "view", [2, 3]⟩) 5 rfl (by decide)⟩

/-- C4: when a status fetch returns a terminal job while polling, the tick
stops the timer (and, in any reachable state, no live interval survives),
leaves the running state, replaces the displayed job with the server
record, triggers one history refresh, and afterwards no further tick can
change the state, so polling never reopens a terminal job. -/
theorem C4_terminal_tick_stops (s : PollState) (job : SyncJob)
    (hreach : PollReachable s) (href : s.pollRef ≠ none)
    (hterm : job.status ≠ "running") :
    (pollTick s (some job)).pollRef = none ∧
    (pollTick s (some job)).timers = [] ∧
    (pollTick s (some job)).isRunning = false ∧
    (pollTick s (some job)).displayedJob = some job ∧
    (pollTick s (some job)).historyFetches = s.historyFetches + 1 ∧
    (∀ o : Option SyncJob,
      pollTick (pollTick s (some job)) o = pollTick s (some job)) := by
  have hx : TimersExact s := reachable_timersExact s hreach
  obtain ⟨dj, hist, run, herr, perr, pref, tmrs, hf⟩ := s
  cases pref with
  | none => exact absurd rfl href
  | some j =>
      unfold TimersExact at hx
      simp only [Option.toList_some] at hx
      subst hx
      have hcore :
          pollTick ⟨dj, hist, run, herr, perr, some j, [j], hf⟩ (some job) =
            ⟨some job, hist, false, herr, perr, none, [], hf + 1⟩ := by
        simp [pollTick, stopPolling, hterm]
      rw [hcore]
      refine ⟨rfl, rfl, rfl, rfl, rfl, ?_⟩
      intro o
      exact pollTick_ref_none _ o rfl

/-- C4 witness: starting a sync from the initial state and then receiving
a terminal status drops the client out of the running state. -/
theorem C4_terminal_tick_stops_witness :
    PollReachable (handleSyncStarted pollInit "j1") ∧
    (handleSyncStarted pollInit "j1").pollRef ≠ none ∧
    (SyncJob.mk "j1" "success").status ≠ "running" ∧
    (pollTick (handleSyncStarted pollInit "j1")
      (some ⟨"j1", "success"⟩)).isRunning = false :=
  ⟨⟨[.syncStarted "j1"], rfl⟩, by decide, by decide,
   (C4_terminal_tick_stops (handleSyncStarted pollInit "j1")
     ⟨"j1", "success"⟩ ⟨[.syncStarted "j1"], rfl⟩ (by decide)
     (by decide)).2.2.1⟩

/-- C5: on a history load whose most recent entry is running, polling
resumes against that job id exactly when no poll timer is active (an
active poll is left untouched); and in every reachable state the live
intervals are exactly the one held by the ref, hence at most one timer
ever exists. -/
theorem C5_resume_only_when_idle (s : PollState) (first : SyncJob)
    (rest : List SyncJob) :
    (first.status = "running" → s.pollRef = none →
      ((loadHistory s (some (first :: rest))).pollRef = some first.id ∧
       (loadHistory s (some (first :: rest))).isRunning = true ∧
       (loadHistory s (some (first :: rest))).displayedJob = some first ∧
       (loadHistory s (some (first :: rest))).history = first :: rest)) ∧
    (s.pollRef ≠ none →
      ((loadHistory s (some (first :: rest))).pollRef = s.pollRef ∧
       (loadHistory s (some (first :: rest))).timers = s.timers ∧
       (loadHistory s (some (first :: rest))).isRunning = s.isRunning ∧
       (loadHistory s (some (first :: rest))).displayedJob
         = s.displayedJob)) ∧
    (PollReachable s →
      s.timers = s.pollRef.toList ∧ s.timers.length ≤ 1) := by
  refine ⟨?_, ?_, ?_⟩
  · intro hst href
    simp [loadHistory, hst, href, startPolling, stopPolling]
  · intro href
    have hcond : ¬(first.status = "running" ∧ s.pollRef = none) := by
      rintro ⟨_, h⟩
      exact href h
    simp [loadHistory, hcond]
  · intro hreach
    have hx : TimersExact s := reachable_timersExact s hreach
    unfold TimersExact at hx
    refine ⟨hx, ?_⟩
    rw [hx]
    cases s.pollRef <;> simp

/-- C5 witness: while a poll is already active after a sync start, a
history load showing a running most-recent job does not replace the
active poll. -/
theorem C5_resume_only_when_idle_witness :
    (handleSyncStarted pollInit "j1").pollRef ≠ none ∧
    (loadHistory (handleSyncStarted pollInit "j1")
      (some [⟨"j2", "running"⟩])).pollRef
      = (handleSyncStarted pollInit "j1").pollRef :=
  ⟨by decide,
   ((C5_resume_only_when_idle (handleSyncStarted pollInit "j1")
     ⟨"j2", "running"⟩ []).2.1 (by decide)).1⟩

/-- C6: a status-fetch failure while polling changes nothing but the
poll-error notice: the timer stays live, the running flag and displayed
job are untouched, no history refresh is issued, the stale-status notice
is set, the interval is the fixed 2000 ms one, and the very next
successful tick is processed normally. -/
theorem C6_poll_failure_is_transient (s : PollState)
    (href : s.pollRef ≠ none) :
    (pollTick s none).pollRef = s.pollRef ∧
    (pollTick s none).timers = s.timers ∧
    (pollTick s none).isRunning = s.isRunning ∧
    (pollTick s none).displayedJob = s.displayedJob ∧
    (pollTick s none).history = s.history ∧
    (pollTick s none).historyFetches = s.historyFetches ∧
    (pollTick s none).pollError = some pollErrorMsg ∧
    POLL_INTERVAL_MS = 2000 ∧
    (∀ job : SyncJob,
      (pollTick (pollTick s none) (some job)).displayedJob = some job) := by
  obtain ⟨dj, hist, run, herr, perr, pref, tmrs, hf⟩ := s
  cases pref with
  | none => exact absurd rfl href
  | some j =>
      refine ⟨rfl, rfl, rfl, rfl, rfl, rfl, rfl, rfl, ?_⟩
      intro job
      by_cases hst : job.status = "running" <;>
        simp [pollTick, stopPolling, hst]

/-- C6 witness: after starting a sync, a failed status fetch keeps the
poll timer on the same job and raises the stale notice. -/
theorem C6_poll_failure_is_transient_witness :
    (handleSyncStarted pollInit "j1").pollRef ≠ none ∧
    (pollTick (handleSyncStarted pollInit "j1") none).pollRef
      = (handleSyncStarted pollInit "j1").pollRef ∧
    (pollTick (handleSyncStarted pollInit "j1") none).pollError
      = some pollErrorMsg :=
  ⟨by decide,
   (C6_poll_failure_is_transient (handleSyncStarted pollInit "j1")
     (by decide)).1,
   (C6_poll_failure_is_transient (handleSyncStarted pollInit "j1")
     (by decide)).2.2.2.2.2.2.1⟩

/-- C9 counterexample: on job submission the current SyncPage does not hold
any job record at all - handleSyncStarted sets the displayed job to null
while entering the running state - refuting the claim that a placeholder
record with status running is held. -/
theorem C9_no_placeholder_counterexample :
    (handleSyncStarted pollInit "job-new").isRunning = true ∧
    (handleSyncStarted pollInit "job-new").displayedJob = none := by
  constructor <;> rfl

/-- C9 amended: on job submission the poll client enters the running state
and starts polling the submitted job id immediately, but holds no job
record (displayedJob is null); the status panel renders its starting
placeholder from the isRunning flag until the first poll response. -/
theorem C9_submission_amended (s : PollState) (jid : String) :
    (handleSyncStarted s jid).isRunning = true ∧
    (handleSyncStarted s jid).displayedJob = none ∧
    (handleSyncStarted s jid).pollRef = some jid ∧
    (handleSyncStarted s jid).historyFetches = s.historyFetches + 1 ∧
    syncStatusEmptyState (handleSyncStarted s jid).displayedJob
      (handleSyncStarted s jid).isRunning = some "Sync starting..." := by
  obtain ⟨dj, hist, run, herr, perr, pref, tmrs, hf⟩ := s
  cases pref <;>
    simp [handleSyncStarted, startPolling, stopPolling, syncStatusEmptyState]

/-- C8: the start-sync request built by the client carries the selected
entities exactly, but serializes the refresh-mode flag under the body key
full - there is no full_refresh key in the request body, contradicting the
documented wire contract. -/
theorem C8_startSync_body (entities : List String) (full : Bool)
    (hne : entities ≠ []) :
    bodyField (startSync entities full) "full_refresh" = none ∧
    bodyField (startSync entities full) "full" = some (.bool full) ∧
    bodyField (startSync entities full) "entities"
      = some (.arr (entities.map .str)) ∧
    (startSync entities full).url = "/api/sync/start" ∧
    (startSync entities full).method = "POST" ∧
    handleStart false false entities full = some (startSync entities full) := by
  refine ⟨rfl, rfl, rfl, rfl, rfl, ?_⟩
  have hlen : entities.length ≠ 0 := by
    simpa [List.length_eq_zero] using hne
  simp [handleStart, hlen]

/-- C8 witness: the failing input - a start request for the accounts
entity in full-refresh mode - has no full_refresh key in its body. -/
theorem C8_startSync_body_witness :
    (["accounts"] : List String) ≠ [] ∧
    bodyField (startSync ["accounts"] true) "full_refresh" = none :=
  ⟨by decide, (C8_startSync_body ["accounts"] true (by decide)).1⟩

end Stash
